import Mathlib

/-!
Verification of the vibration_auto_mode sensor-configuration tool.

Two layers are embedded, following the two protocol files:

* Transport (`sensor_comm.py`, class `SensorCommunication`): the serial
  connection is modelled by `CommState`.  `conn = some b` models a
  connection object whose `is_open` flag is `b`; `conn = none` models a
  connection that was never opened or was closed.  Successive results of
  `connection.read(n)` are scripted in `chunks` (pyserial returns at most
  `n` bytes, modelled by truncating the scripted chunk with `take n`);
  every byte written by `connection.write` is appended to `written`.
  Python exceptions become `Except CommErr`.

* Engine (`sensor_config.py`, class `SensorConfigurator`): every call to
  `comm.send_commands` is one interaction with the device, modelled by an
  oracle `Dev : Nat → DevResp` indexed by the number of calls made so
  far: `DevResp.ok bs` is the concatenated response bytes, `DevResp.exn`
  a raised exception.  Real-time polling bounds (`FLASH_BACKUP_TIMEOUT`
  with `BACKUP_POLL_INTERVAL` sleeps, the `_wait_until_ready` bound) are
  abstracted into a fuel argument counting the poll iterations the time
  budget allows.  Where a claim is about which commands are sent, the
  engine function also returns the list of command byte-lists passed to
  `send_commands` on the executed path.
-/

/-! Transport layer: sensor_comm.py -/

/-- Error kinds raised by the transport: `RuntimeError("Connection not open")`
and `TimeoutError("Read timeout occurred")`. -/
inductive CommErr where
  | notOpen
  | timeout
deriving DecidableEq

/-- State of a `SensorCommunication` object together with the scripted
byte stream. -/
structure CommState where
  conn : Option Bool
  chunks : List (List Nat)
  written : List Nat
deriving DecidableEq

/-- `SensorCommunication.is_open`: the connection object exists and its
`is_open` flag is set. -/
def is_open (s : CommState) : Bool :=
  match s.conn with
  | some b => b
  | none => false

/-- `DEFAULT_READ_CHUNK_SIZE` from sensor_comm.py. -/
def DEFAULT_READ_CHUNK_SIZE : Nat := 4096

/-- The `while length > 0` loop of `SensorCommunication.read_bytes`.
Each iteration asks the stream for `min length DEFAULT_READ_CHUNK_SIZE`
bytes, receives the next scripted chunk truncated to that request, raises
`TimeoutError` when zero bytes arrive, otherwise appends the received
bytes and decreases `length`.  Since every successful iteration consumes
at least one byte, a fuel of the initial `length` suffices; the
fuel-exhausted branch is unreachable whenever `length ≤ fuel`. -/
def readLoop : Nat → List (List Nat) → Nat → Except CommErr (List Nat × List (List Nat))
  | _, chunks, 0 => .ok ([], chunks)
  | 0, _, _ + 1 => .error .timeout
  | fuel + 1, chunks, length + 1 =>
    let readLen := min (length + 1) DEFAULT_READ_CHUNK_SIZE
    let received := (chunks.headD []).take readLen
    if received.length = 0 then .error .timeout
    else
      match readLoop fuel chunks.tail (length + 1 - received.length) with
      | .ok (rest, ch) => .ok (received ++ rest, ch)
      | .error e => .error e

/-- `SensorCommunication.read_bytes`: raises `RuntimeError` when the
connection is not open, otherwise runs the chunked read loop. -/
def read_bytes (s : CommState) (length : Nat) : Except CommErr (List Nat) × CommState :=
  if is_open s then
    match readLoop length s.chunks length with
    | .ok (bs, ch) => (.ok bs, { s with chunks := ch })
    | .error e => (.error e, s)
  else (.error .notOpen, s)

/-- `SensorCommunication.send_command`: raises `RuntimeError` when the
connection is not open; otherwise writes `command[1:]` (the payload,
including its `0x0D` terminator — no extra framing), flushes, and if
`command[0] > 0` reads exactly that many bytes via `read_bytes`, else
returns the empty response. -/
def send_command (s : CommState) (command : List Nat) : Except CommErr (List Nat) × CommState :=
  if is_open s then
    let s1 := { s with written := s.written ++ command.tail }
    if 0 < command.headD 0 then read_bytes s1 (command.headD 0)
    else (.ok [], s1)
  else (.error .notOpen, s)

/-! Protocol engine: sensor_config.py

Each call the engine makes to `comm.send_commands` is one interaction
with the device oracle.  `DevResp.ok bs` is the concatenated response
bytes returned to the engine; `DevResp.exn` models the call raising an
exception (TimeoutError or any other), which every engine operation
catches at its own boundary per the source. -/

/-- Outcome of one `send_commands` call as seen by the engine. -/
inductive DevResp where
  | ok (bytes : List Nat)
  | exn
deriving DecidableEq

/-- Device oracle: the response to the i-th `send_commands` call of a
session. -/
abbrev Dev := Nat → DevResp

/-- `PROD_ID_REGISTERS` from sensor_config.py. -/
def PROD_ID_REGISTERS : List Nat := [0x6A, 0x6C, 0x6E, 0x70]

/-- `SERIAL_REGISTERS` from sensor_config.py. -/
def SERIAL_REGISTERS : List Nat := [0x74, 0x76, 0x78, 0x7A]

/-- `PRODUCT_ID_ALIASES` from sensor_config.py: a one-entry dictionary,
looked up with the raw string itself as default. -/
def PRODUCT_ID_ALIASES (s : String) : String :=
  if s = "A342VD10" then "M-A542VR1" else s

/-- Python `str.strip` on a character list: whitespace dropped from both
ends. -/
def stripEnds (cs : List Char) : List Char :=
  ((cs.dropWhile Char.isWhitespace).reverse.dropWhile Char.isWhitespace).reverse

/-- `SensorConfigurator._decode_ascii_words`: each 16-bit word yields its
two bytes (low byte first when `littleEndian`), null bytes are dropped,
the characters are concatenated and the result stripped of surrounding
whitespace (Python `str.strip`). -/
def decode_ascii_words (words : List Nat) (littleEndian : Bool) : String :=
  String.mk (stripEnds (words.flatMap fun w =>
    ((if littleEndian then [w &&& 0xFF, (w >>> 8) &&& 0xFF]
      else [(w >>> 8) &&& 0xFF, w &&& 0xFF]).filter (fun b => b != 0)).map
        Char.ofNat))

/-- `SensorConfigurator._read_word`: sends the window-select write
`[0, 0xFE, window, 0x0D]` and the 4-byte read `[4, address, 0x00, 0x0D]`
in one `send_commands` call; returns `none` on any exception or on a
response shorter than 4 bytes, otherwise `(result[-3] << 8) | result[-2]`.
The second component is the index of the next device interaction. -/
def read_word (dev : Dev) (k : Nat) (address window : Nat) : Option Nat × Nat :=
  match dev k with
  | .exn => (none, k + 1)
  | .ok r =>
    if r.length < 4 then (none, k + 1)
    else (some ((r.getD (r.length - 3) 0 <<< 8) ||| r.getD (r.length - 2) 0), k + 1)

/-- Identity record built by `detect_identity`. -/
structure Identity where
  product_id : String
  product_id_raw : String
  serial_number : String
  product_words : List Nat
  serial_words : List Nat
deriving DecidableEq

/-- The per-register-list read loops of `detect_identity`: one
`read_word` per register, aborting with `none` on the first failed read
without attempting the remaining registers of the list. -/
def read_words (dev : Dev) : List Nat → Nat → Option (List Nat) × Nat
  | [], k => (some [], k)
  | reg :: regs, k =>
    match read_word dev k reg 0x01 with
    | (none, k1) => (none, k1)
    | (some w, k1) =>
      match read_words dev regs k1 with
      | (none, k2) => (none, k2)
      | (some ws, k2) => (some (w :: ws), k2)

/-- `SensorConfigurator.detect_identity`: reads the 4 product-ID then the
4 serial registers (window 1), aborting with `none` the moment any single
read fails; on success writes the window-0 restore command (this final
`_write_commands` is outside any try block, so an exception there
escapes, modelled by `Except.error`) and returns the decoded record.
Python's `product_id or ""` is the identity on strings, since only the
empty string is falsy. -/
def detect_identity (dev : Dev) (k : Nat) : Except Unit (Option Identity) × Nat :=
  match read_words dev PROD_ID_REGISTERS k with
  | (none, k1) => (.ok none, k1)
  | (some pws, k1) =>
    match read_words dev SERIAL_REGISTERS k1 with
    | (none, k2) => (.ok none, k2)
    | (some sws, k2) =>
      match dev k2 with
      | .exn => (.error (), k2 + 1)
      | .ok _ =>
        (.ok (some {
          product_id := PRODUCT_ID_ALIASES (decode_ascii_words pws true),
          product_id_raw := decode_ascii_words pws true,
          serial_number := decode_ascii_words sws true,
          product_words := pws,
          serial_words := sws }), k2 + 1)

/-- `SensorConfigurator._wait_until_ready`: polls GLOB_CMD (window 1,
address 0x0A); ready when the response has at least 4 bytes and bit
0x0400 of `(result[-3] << 8) | result[-2]` is clear.  TimeoutError and
every other exception during a poll are caught and treated as "not ready
yet".  `fuel` counts the poll iterations the `timeout` bound allows;
exhausted fuel is the overall bound expiring, yielding `false`. -/
def wait_until_ready (dev : Dev) : Nat → Nat → Bool × Nat
  | 0, k => (false, k)
  | fuel + 1, k =>
    match dev k with
    | .ok r =>
      if 4 ≤ r.length ∧
          ((r.getD (r.length - 3) 0 <<< 8) ||| r.getD (r.length - 2) 0) &&& 0x0400 = 0
      then (true, k + 1)
      else wait_until_ready dev fuel (k + 1)
    | .exn => wait_until_ready dev fuel (k + 1)

/-- Commands of the `flash_backup` start phase (window 1, GLOB_CMD := 0x08). -/
def backupStartCmds : List (List Nat) := [[0, 0xFE, 0x01, 0x0D], [0, 0x8A, 0x08, 0x0D]]

/-- Commands of one `flash_backup` poll iteration (window 1, read GLOB_CMD). -/
def backupPollCmds : List (List Nat) := [[0, 0xFE, 0x01, 0x0D], [4, 0x0A, 0x00, 0x0D]]

/-- Commands of the `flash_backup` verify phase (window 0, read DIAG_STAT1). -/
def backupVerifyCmds : List (List Nat) := [[0, 0xFE, 0x00, 0x0D], [4, 0x04, 0x00, 0x0D]]

/-- The polling loop of `flash_backup`: each iteration reads GLOB_CMD and
breaks when the response has at least 4 bytes and bit 3 of `result[2]`
(the low byte of the 16-bit value) is clear.  `Except.error` models an
exception escaping the loop to the enclosing handler; `Except.ok false`
is the `while`/`else` timeout path.  Also returns the next interaction
index and the commands sent. -/
def flashBackupLoop (dev : Dev) : Nat → Nat → Except Unit Bool × Nat × List (List Nat)
  | 0, k => (.ok false, k, [])
  | fuel + 1, k =>
    match dev k with
    | .exn => (.error (), k + 1, backupPollCmds)
    | .ok r =>
      if 4 ≤ r.length ∧ r.getD 2 0 &&& 0x08 = 0 then (.ok true, k + 1, backupPollCmds)
      else
        let rest := flashBackupLoop dev fuel (k + 1)
        (rest.1, rest.2.1, backupPollCmds ++ rest.2.2)

/-- `SensorConfigurator.flash_backup`: start command, poll until GLOB_CMD
bit 3 clears (timeout → `false`), then verify DIAG_STAT1 (window 0,
address 0x04): `false` when the response is short or bit 0 (FLASH_BU_ERR)
of `result[2]` is set, `true` when it is clear.  Any exception is caught
and yields `false`. -/
def flash_backup (dev : Dev) (k fuel : Nat) : Bool × Nat × List (List Nat) :=
  match dev k with
  | .exn => (false, k + 1, backupStartCmds)
  | .ok _ =>
    match flashBackupLoop dev fuel (k + 1) with
    | (.error _, k1, log) => (false, k1, backupStartCmds ++ log)
    | (.ok false, k1, log) => (false, k1, backupStartCmds ++ log)
    | (.ok true, k1, log) =>
      match dev k1 with
      | .exn => (false, k1 + 1, backupStartCmds ++ log ++ backupVerifyCmds)
      | .ok r =>
        if 4 ≤ r.length then
          if r.getD 2 0 &&& 0x01 = 0 then
            (true, k1 + 1, backupStartCmds ++ log ++ backupVerifyCmds)
          else (false, k1 + 1, backupStartCmds ++ log ++ backupVerifyCmds)
        else (false, k1 + 1, backupStartCmds ++ log ++ backupVerifyCmds)

/-- The polling loop of `flash_test`: reads MSC_CTRL (window 1, address
0x02) and breaks when the response has at least 4 bytes and bit 0x0400 of
`(result[-3] << 8) | result[-2]` is clear. -/
def flashTestLoop (dev : Dev) : Nat → Nat → Except Unit Bool × Nat
  | 0, k => (.ok false, k)
  | fuel + 1, k =>
    match dev k with
    | .exn => (.error (), k + 1)
    | .ok r =>
      if 4 ≤ r.length ∧
          ((r.getD (r.length - 3) 0 <<< 8) ||| r.getD (r.length - 2) 0) &&& 0x0400 = 0
      then (.ok true, k + 1)
      else flashTestLoop dev fuel (k + 1)

/-- `SensorConfigurator.flash_test`: start command (window 1, MSC_CTRL :=
0x08), poll until bit 0x0400 clears (timeout → `false`), then read
DIAG_STAT1; `false` only when that response has at least 4 bytes and bit
2 (0x04, FLASH_ERR) of `result[-2]` is set — a short response skips the
check — then a `wait_until_ready` (bound 2.0s, result ignored) and
`true`.  Any exception is caught and yields `false`. -/
def flash_test (dev : Dev) (k fuel ready : Nat) : Bool × Nat :=
  match dev k with
  | .exn => (false, k + 1)
  | .ok _ =>
    match flashTestLoop dev fuel (k + 1) with
    | (.error _, k1) => (false, k1)
    | (.ok false, k1) => (false, k1)
    | (.ok true, k1) =>
      match dev k1 with
      | .exn => (false, k1 + 1)
      | .ok r =>
        if 4 ≤ r.length ∧ r.getD (r.length - 2) 0 &&& 0x04 ≠ 0 then (false, k1 + 1)
        else (true, (wait_until_ready dev ready (k1 + 1)).2)

/-- Commands of the `exit_auto_mode` mode-exit write (window 0, MODE_CTRL
:= 0x02). -/
def exitModeCmds : List (List Nat) := [[0, 0xFE, 0x00, 0x0D], [0, 0x83, 0x02, 0x0D]]

/-- Commands of the `exit_auto_mode` MODE_CTRL verify read. -/
def modeReadCmds : List (List Nat) := [[0, 0xFE, 0x00, 0x0D], [4, 0x02, 0x00, 0x0D]]

/-- Commands of the `exit_auto_mode` UART_CTRL clear write (window 1,
0x88 := 0x00). -/
def clearUartCmds : List (List Nat) := [[0, 0xFE, 0x01, 0x0D], [0, 0x88, 0x00, 0x0D]]

/-- Command restoring window 0. -/
def selectWindowZeroCmds : List (List Nat) := [[0, 0xFE, 0x00, 0x0D]]

/-- `SensorConfigurator.exit_auto_mode`: mode-exit write, then MODE_CTRL
read — `false` when the response is shorter than 4 bytes or bit 0x0400 of
`(result[-3] << 8) | result[-2]` is clear; only on confirmation is the
UART_CTRL clear write issued, then (when `persistDisableAuto`) a
`flash_backup` whose failure propagates, then the window-0 restore.  Any
exception is caught and yields `false`.  `fuel` is the nested
`flash_backup` poll budget.  The third component lists the commands
passed to `send_commands` on the executed path. -/
def exit_auto_mode (dev : Dev) (k fuel : Nat) (persistDisableAuto : Bool) :
    Bool × Nat × List (List Nat) :=
  match dev k with
  | .exn => (false, k + 1, exitModeCmds)
  | .ok _ =>
    match dev (k + 1) with
    | .exn => (false, k + 2, exitModeCmds ++ modeReadCmds)
    | .ok r =>
      if r.length < 4 then (false, k + 2, exitModeCmds ++ modeReadCmds)
      else if ((r.getD (r.length - 3) 0 <<< 8) ||| r.getD (r.length - 2) 0) &&& 0x0400 = 0
      then (false, k + 2, exitModeCmds ++ modeReadCmds)
      else
        match dev (k + 2) with
        | .exn => (false, k + 3, exitModeCmds ++ modeReadCmds ++ clearUartCmds)
        | .ok _ =>
          if persistDisableAuto then
            match flash_backup dev (k + 3) fuel with
            | (false, k1, log) =>
              (false, k1, exitModeCmds ++ modeReadCmds ++ clearUartCmds ++ log)
            | (true, k1, log) =>
              match dev k1 with
              | .exn => (false, k1 + 1,
                  exitModeCmds ++ modeReadCmds ++ clearUartCmds ++ log ++ selectWindowZeroCmds)
              | .ok _ => (true, k1 + 1,
                  exitModeCmds ++ modeReadCmds ++ clearUartCmds ++ log ++ selectWindowZeroCmds)
          else
            match dev (k + 3) with
            | .exn => (false, k + 4,
                exitModeCmds ++ modeReadCmds ++ clearUartCmds ++ selectWindowZeroCmds)
            | .ok _ => (true, k + 4,
                exitModeCmds ++ modeReadCmds ++ clearUartCmds ++ selectWindowZeroCmds)

/-- `SensorConfigurator.reset_sensor`: one `send_commands` call sending
the reset spell three times; no response expected. -/
def reset_sensor (dev : Dev) (k : Nat) : Except Unit Unit × Nat :=
  match dev k with
  | .exn => (.error (), k + 1)
  | .ok _ => (.ok (), k + 1)

/-- `SensorConfigurator.software_reset`: GLOB_CMD := 0x80 (window 1),
then returns whatever `_wait_until_ready(timeout=7.0)` returns.  An
exception on the write is caught and yields `false`. -/
def software_reset (dev : Dev) (k fuel : Nat) : Bool × Nat :=
  match dev k with
  | .exn => (false, k + 1)
  | .ok _ => wait_until_ready dev fuel (k + 1)

/-- Prelude of `full_reset`: when `persist`, run
`exit_auto_mode(persist_disable_auto=True)`; otherwise just the window-0
select write (whose exception is caught by `full_reset`). -/
def fullResetPre (dev : Dev) (k fuel : Nat) (persist : Bool) : Bool × Nat :=
  if persist then
    ((exit_auto_mode dev k fuel true).1, (exit_auto_mode dev k fuel true).2.1)
  else
    match dev k with
    | .exn => (false, k + 1)
    | .ok _ => (true, k + 1)

/-- `SensorConfigurator.full_reset`: prelude, then `reset_sensor`, then
`flash_test` (its Boolean result only selects a log-warning line in the
source — the sequence continues either way, so only its device-call
consumption matters here), then `software_reset` whose result decides
the outcome.
`fb`, `ft`, `rd`, `sw` are the poll budgets of the nested
`flash_backup`, the `flash_test` poll, the post-flash-test readiness
wait, and the `software_reset` readiness wait. -/
def full_reset (dev : Dev) (k : Nat) (persist : Bool) (fb ft rd sw : Nat) : Bool × Nat :=
  match fullResetPre dev k fb persist with
  | (false, k1) => (false, k1)
  | (true, k1) =>
    match reset_sensor dev k1 with
    | (.error _, k2) => (false, k2)
    | (.ok _, k2) => software_reset dev (flash_test dev k2 ft rd).2 sw

/-- Predicate: a poll response reporting GLOB_CMD with bit 0x0400 clear
(the "ready" test of `_wait_until_ready`). -/
def glob_not_busy (r : DevResp) : Prop :=
  ∃ bs, r = DevResp.ok bs ∧ 4 ≤ bs.length ∧
    ((bs.getD (bs.length - 3) 0 <<< 8) ||| bs.getD (bs.length - 2) 0) &&& 0x0400 = 0

/-- Predicate: a `flash_backup` poll response whose low byte has bit 3
clear (backup completed). -/
def backup_done (r : DevResp) : Prop :=
  ∃ bs, r = DevResp.ok bs ∧ 4 ≤ bs.length ∧ bs.getD 2 0 &&& 0x08 = 0

/-- Predicate: a `flash_backup` poll response that keeps the loop
polling (no exception, not yet done). -/
def backup_poll_again (r : DevResp) : Prop :=
  ∃ bs, r = DevResp.ok bs ∧ ¬(4 ≤ bs.length ∧ bs.getD 2 0 &&& 0x08 = 0)

/-- Predicate: a DIAG_STAT1 verify response accepted by `flash_backup`
(at least 4 bytes, FLASH_BU_ERR bit clear). -/
def backup_verify_ok (r : DevResp) : Prop :=
  ∃ bs, r = DevResp.ok bs ∧ 4 ≤ bs.length ∧ bs.getD 2 0 &&& 0x01 = 0

/-- Predicate: a register read that succeeds (no exception, at least 4
bytes). -/
def read_ok (r : DevResp) : Prop :=
  ∃ bs, r = DevResp.ok bs ∧ 4 ≤ bs.length

/-- Predicate: a register read that `_read_word` converts to `none`
(exception or short response). -/
def read_fails (r : DevResp) : Prop :=
  r = DevResp.exn ∨ ∃ bs, r = DevResp.ok bs ∧ bs.length < 4

/-- Device script of the identity end-to-end scenario: the 8 register
reads answer with words spelling "A342VD10" (product) and "12345678"
(serial) in low-byte-first order, each response framed as
`[addr, MSB, LSB, 0x0D]`; every later call succeeds with an empty
response. -/
def devIdentity : Dev := fun k =>
  DevResp.ok (([[0x6A, 0x33, 0x41, 0x0D], [0x6C, 0x32, 0x34, 0x0D],
    [0x6E, 0x44, 0x56, 0x0D], [0x70, 0x30, 0x31, 0x0D],
    [0x74, 0x32, 0x31, 0x0D], [0x76, 0x34, 0x33, 0x0D],
    [0x78, 0x36, 0x35, 0x0D], [0x7A, 0x38, 0x37, 0x0D]] : List (List Nat)).getD k [])

theorem readLoop_error_eq :
    ∀ (fuel : Nat) (chunks : List (List Nat)) (length : Nat) (e : CommErr),
      readLoop fuel chunks length = .error e → e = CommErr.timeout := by
  intro fuel
  induction fuel with
  | zero =>
    intro chunks length e h
    cases length with
    | zero => simp [readLoop] at h
    | succ n =>
      simp only [readLoop] at h
      exact ((Except.error.injEq _ _).mp h).symm
  | succ f ih =>
    intro chunks length e h
    cases length with
    | zero => simp [readLoop] at h
    | succ n =>
      simp only [readLoop] at h
      split at h
      · exact ((Except.error.injEq _ _).mp h).symm
      · split at h
        · simp at h
        · rename_i e2 hrec
          obtain rfl := (Except.error.injEq _ _).mp h
          exact ih _ _ _ hrec

theorem readLoop_ok_length :
    ∀ (fuel : Nat) (chunks : List (List Nat)) (length : Nat) (bs : List Nat)
      (ch : List (List Nat)),
      readLoop fuel chunks length = .ok (bs, ch) → bs.length = length := by
  intro fuel
  induction fuel with
  | zero =>
    intro chunks length bs ch h
    cases length with
    | zero =>
      simp only [readLoop, Except.ok.injEq, Prod.mk.injEq] at h
      simp [← h.1]
    | succ n => simp [readLoop] at h
  | succ f ih =>
    intro chunks length bs ch h
    cases length with
    | zero =>
      simp only [readLoop, Except.ok.injEq, Prod.mk.injEq] at h
      simp [← h.1]
    | succ n =>
      simp only [readLoop] at h
      split at h
      · simp at h
      · rename_i hne
        split at h
        · rename_i rest ch2 hrec
          have hlen := ih _ _ _ _ hrec
          obtain ⟨h1, h2⟩ := (Prod.mk.injEq _ _ _ _).mp ((Except.ok.injEq _ _).mp h)
          subst h1
          have hle : ((chunks.headD []).take (min (n + 1) DEFAULT_READ_CHUNK_SIZE)).length
              ≤ n + 1 := by
            simp [List.length_take]
          simp only [List.length_append, hlen]
          omega
        · simp at h

theorem is_open_set_written (s : CommState) (w : List Nat) :
    is_open { s with written := w } = is_open s := rfl

/-- C5: for every command, `send_command` writes exactly the command's
payload bytes (`command[1:]`) to the stream with no added framing, returns
the empty sequence when the expected response length (`command[0]`) is 0,
and otherwise performs a chunked blocking read of exactly that many
bytes; the only error an open-connection exchange can raise is
`TimeoutError`, raised in particular when a chunk attempt yields zero
bytes. -/
theorem send_command_spec (s : CommState) (n : Nat) (payload : List Nat)
    (hopen : is_open s = true) :
    (send_command s (n :: payload)).2.written = s.written ++ payload ∧
    (n = 0 → (send_command s (n :: payload)).1 = .ok []) ∧
    (∀ bs, (send_command s (n :: payload)).1 = .ok bs → bs.length = n) ∧
    (∀ e, (send_command s (n :: payload)).1 = .error e → e = CommErr.timeout) ∧
    (0 < n → (s.chunks.headD []).take (min n DEFAULT_READ_CHUNK_SIZE) = [] →
      (send_command s (n :: payload)).1 = .error CommErr.timeout) := by
  by_cases hn : 0 < n
  · have hsc : send_command s (n :: payload) =
        read_bytes { s with written := s.written ++ payload } n := by
      simp [send_command, hopen, hn]
    rw [hsc]
    cases hres : readLoop n s.chunks n with
    | ok p =>
      obtain ⟨bs, ch⟩ := p
      have hrb : read_bytes { s with written := s.written ++ payload } n =
          (.ok bs, { s with written := s.written ++ payload, chunks := ch }) := by
        simp [read_bytes, is_open_set_written, hopen, hres]
      rw [hrb]
      refine ⟨rfl, ?_, ?_, ?_, ?_⟩
      · intro h0; omega
      · intro bs2 hb
        simp only at hb
        obtain rfl := (Except.ok.injEq _ _).mp hb
        exact readLoop_ok_length _ _ _ _ _ hres
      · intro e he; simp at he
      · intro hpos hempty
        exfalso
        obtain ⟨m, rfl⟩ : ∃ m, n = m + 1 := ⟨n - 1, by omega⟩
        have hlen0 : ((s.chunks.headD []).take
            (min (m + 1) DEFAULT_READ_CHUNK_SIZE)).length = 0 := by
          rw [hempty]; rfl
        have hmin : min (m + 1) DEFAULT_READ_CHUNK_SIZE ≠ 0 := by
          unfold DEFAULT_READ_CHUNK_SIZE; omega
        have hnil : s.chunks.headD [] = [] := by
          rw [List.length_take] at hlen0
          rcases Nat.min_eq_zero_iff.mp hlen0 with h | h
          · exact absurd h hmin
          · exact List.length_eq_zero.mp h
        have hnil2 : s.chunks.head?.getD [] = [] := by
          rw [← List.headD_eq_head?]; exact hnil
        rw [readLoop] at hres
        simp [hnil2] at hres
    | error e =>
      have hrb : read_bytes { s with written := s.written ++ payload } n =
          (.error e, { s with written := s.written ++ payload }) := by
        simp [read_bytes, is_open_set_written, hopen, hres]
      rw [hrb]
      refine ⟨rfl, ?_, ?_, ?_, ?_⟩
      · intro h0; omega
      · intro bs2 hb; simp at hb
      · intro e2 he
        simp only at he
        obtain rfl := (Except.error.injEq _ _).mp he
        exact readLoop_error_eq _ _ _ _ hres
      · intro hpos hempty
        have he : e = CommErr.timeout := readLoop_error_eq _ _ _ _ hres
        simp [he]
  · have hn0 : n = 0 := by omega
    subst hn0
    have hsc : send_command s (0 :: payload) =
        (.ok [], { s with written := s.written ++ payload }) := by
      simp [send_command, hopen]
    rw [hsc]
    refine ⟨rfl, fun _ => rfl, ?_, ?_, ?_⟩
    · intro bs hb
      simp only at hb
      obtain rfl := (Except.ok.injEq _ _).mp hb
      rfl
    · intro e he; simp at he
    · intro h; omega

theorem send_command_spec_witness :
    is_open ⟨some true, [[0x04, 0x12, 0x34, 0x0D]], []⟩ = true ∧
    (send_command ⟨some true, [[0x04, 0x12, 0x34, 0x0D]], []⟩
        [4, 0x83, 0x02, 0x0D]).2.written = [] ++ [0x83, 0x02, 0x0D] :=
  ⟨rfl, (send_command_spec ⟨some true, [[0x04, 0x12, 0x34, 0x0D]], []⟩ 4
    [0x83, 0x02, 0x0D] rfl).1⟩

/-- C10: `send_command` and `read_bytes` raise `RuntimeError` when the
connection is not open (never opened, or closed), before any bytes are
written to or read from the stream — the returned state is unchanged. -/
theorem not_open_raises (s : CommState) (command : List Nat) (n : Nat)
    (h : is_open s = false) :
    send_command s command = (.error CommErr.notOpen, s) ∧
    read_bytes s n = (.error CommErr.notOpen, s) := by
  constructor
  · simp [send_command, h]
  · simp [read_bytes, h]

theorem not_open_raises_witness :
    send_command ⟨none, [[1]], []⟩ [4, 0x83, 0x02, 0x0D] =
      (.error CommErr.notOpen, ⟨none, [[1]], []⟩) ∧
    read_bytes ⟨none, [[1]], []⟩ 4 = (.error CommErr.notOpen, ⟨none, [[1]], []⟩) :=
  not_open_raises ⟨none, [[1]], []⟩ [4, 0x83, 0x02, 0x0D] 4 rfl

/-- C4: for every address and window, `read_word` given a 4-byte response
`[addr, MSB, LSB, 0x0D]` returns `(MSB <<< 8) ||| LSB`; given a response
shorter than 4 bytes, or a raised exception, it returns `none` (and never
raises further, being total). -/
theorem read_word_spec (dev : Dev) (k address window addr msb lsb : Nat) (bs : List Nat) :
    (dev k = DevResp.ok [addr, msb, lsb, 0x0D] →
      (read_word dev k address window).1 = some ((msb <<< 8) ||| lsb)) ∧
    (dev k = DevResp.ok bs → bs.length < 4 → (read_word dev k address window).1 = none) ∧
    (dev k = DevResp.exn → (read_word dev k address window).1 = none) := by
  refine ⟨?_, ?_, ?_⟩
  · intro h
    simp [read_word, h, List.getD]
  · intro h hlen
    simp [read_word, h, hlen]
  · intro h
    simp [read_word, h]

theorem read_word_spec_witness :
    (read_word (fun _ => DevResp.ok [0x04, 0x12, 0x34, 0x0D]) 0 0x04 0x00).1 =
      some ((0x12 <<< 8) ||| 0x34) :=
  (read_word_spec (fun _ => DevResp.ok [0x04, 0x12, 0x34, 0x0D])
    0 0x04 0x00 0x04 0x12 0x34 []).1 rfl

/-- C8: `wait_until_ready` returns `true` exactly when some poll within
the bound yields a GLOB_CMD response of at least 4 bytes with bit 0x0400
clear; exceptions (timeouts included) and short or busy responses during
a poll merely continue the loop, and only exhausting the bound with no
ready reading yields `false`. -/
theorem wait_until_ready_true_iff (dev : Dev) :
    ∀ (fuel k : Nat),
      (wait_until_ready dev fuel k).1 = true ↔ ∃ i < fuel, glob_not_busy (dev (k + i)) := by
  intro fuel
  induction fuel with
  | zero => intro k; simp [wait_until_ready]
  | succ f ih =>
    intro k
    constructor
    · intro h
      simp only [wait_until_ready] at h
      split at h
      · rename_i r hd
        split at h
        · rename_i hc
          exact ⟨0, by omega, ⟨r, by simpa using hd, hc.1, hc.2⟩⟩
        · rename_i hc
          obtain ⟨i, hi, hg⟩ := (ih (k + 1)).mp h
          refine ⟨i + 1, by omega, ?_⟩
          have hadd : k + (i + 1) = k + 1 + i := by omega
          rw [hadd]; exact hg
      · rename_i hd
        obtain ⟨i, hi, hg⟩ := (ih (k + 1)).mp h
        refine ⟨i + 1, by omega, ?_⟩
        have hadd : k + (i + 1) = k + 1 + i := by omega
        rw [hadd]; exact hg
    · rintro ⟨i, hi, hg⟩
      simp only [wait_until_ready]
      split
      · rename_i r hd
        split
        · rfl
        · rename_i hc
          cases i with
          | zero =>
            exfalso
            obtain ⟨bs, hbs, hb1, hb2⟩ := hg
            rw [Nat.add_zero, hd] at hbs
            obtain rfl := (DevResp.ok.injEq _ _).mp hbs.symm
            exact hc ⟨hb1, hb2⟩
          | succ j =>
            apply (ih (k + 1)).mpr
            refine ⟨j, by omega, ?_⟩
            have hadd : k + 1 + j = k + (j + 1) := by omega
            rw [hadd]; exact hg
      · rename_i hd
        cases i with
        | zero =>
          exfalso
          obtain ⟨bs, hbs, _, _⟩ := hg
          rw [Nat.add_zero, hd] at hbs
          exact DevResp.noConfusion hbs
        | succ j =>
          apply (ih (k + 1)).mpr
          refine ⟨j, by omega, ?_⟩
          have hadd : k + 1 + j = k + (j + 1) := by omega
          rw [hadd]; exact hg

/-- C2: for every run of `exit_auto_mode`, if the MODE_CTRL read issued
after the mode-exit write returns fewer than 4 bytes or does not show bit
0x0400 set, the operation returns `false` and the UART_CTRL clear write
`[0, 0x88, 0x00, 0x0D]` is never among the commands issued on that
path. -/
theorem exit_auto_mode_no_clear (dev : Dev) (k fuel : Nat) (p : Bool) (a r : List Nat)
    (h0 : dev k = DevResp.ok a) (h1 : dev (k + 1) = DevResp.ok r)
    (h2 : r.length < 4 ∨
      ((r.getD (r.length - 3) 0 <<< 8) ||| r.getD (r.length - 2) 0) &&& 0x0400 = 0) :
    (exit_auto_mode dev k fuel p).1 = false ∧
    [0, 0x88, 0x00, 0x0D] ∉ (exit_auto_mode dev k fuel p).2.2 := by
  have heq : exit_auto_mode dev k fuel p = (false, k + 2, exitModeCmds ++ modeReadCmds) := by
    unfold exit_auto_mode
    rw [h0, h1]
    dsimp only
    rcases h2 with h2 | h2
    · rw [if_pos h2]
    · by_cases hlen : r.length < 4
      · rw [if_pos hlen]
      · rw [if_neg hlen, if_pos h2]
  rw [heq]
  refine ⟨rfl, ?_⟩
  show [0, 0x88, 0x00, 0x0D] ∉ exitModeCmds ++ modeReadCmds
  decide

theorem exit_auto_mode_no_clear_witness :
    (exit_auto_mode (fun _ => DevResp.ok []) 0 0 false).1 = false ∧
    [0, 0x88, 0x00, 0x0D] ∉ (exit_auto_mode (fun _ => DevResp.ok []) 0 0 false).2.2 :=
  exit_auto_mode_no_clear (fun _ => DevResp.ok []) 0 0 false [] [] rfl rfl
    (Or.inl (by decide))

/-- C6: `detect_identity` on the scripted device whose 4 product words
encode "A342VD10" and whose 4 serial words encode "12345678"
(low-byte-first) returns product_id "M-A542VR1" (alias applied),
product_id_raw "A342VD10" and serial_number "12345678", after 9 device
interactions. -/
theorem detect_identity_scenario :
    detect_identity devIdentity 0 =
      (Except.ok (some ⟨"M-A542VR1", "A342VD10", "12345678",
        [0x3341, 0x3234, 0x4456, 0x3031], [0x3231, 0x3433, 0x3635, 0x3837]⟩), 9) := by
  rfl

theorem read_word_of_ok (dev : Dev) (k a w : Nat) (bs : List Nat)
    (h : dev k = DevResp.ok bs) (hlen : 4 ≤ bs.length) :
    read_word dev k a w =
      (some ((bs.getD (bs.length - 3) 0 <<< 8) ||| bs.getD (bs.length - 2) 0), k + 1) := by
  unfold read_word
  rw [h]
  dsimp only
  rw [if_neg (by omega)]

theorem read_word_of_fail (dev : Dev) (k a w : Nat)
    (h : read_fails (dev k)) : read_word dev k a w = (none, k + 1) := by
  rcases h with h | ⟨bs, h, hlen⟩
  · simp [read_word, h]
  · simp [read_word, h, hlen]

theorem read_words_fail (dev : Dev) :
    ∀ (regs : List Nat) (k j : Nat), j < regs.length →
      (∀ i < j, read_ok (dev (k + i))) → read_fails (dev (k + j)) →
      read_words dev regs k = (none, k + j + 1) := by
  intro regs
  induction regs with
  | nil => intro k j hj; simp at hj
  | cons reg rs ih =>
    intro k j hj hok hfail
    cases j with
    | zero =>
      rw [Nat.add_zero] at hfail
      simp [read_words, read_word_of_fail dev k reg 0x01 hfail]
    | succ j2 =>
      obtain ⟨bs, hbs, hlen⟩ := hok 0 (by omega)
      rw [Nat.add_zero] at hbs
      have h0 := read_word_of_ok dev k reg 0x01 bs hbs hlen
      have hrec := ih (k + 1) j2 (by simp at hj; omega)
        (fun i hi => by
          have hh := hok (i + 1) (by omega)
          rwa [show k + (i + 1) = k + 1 + i by omega] at hh)
        (by rwa [show k + 1 + j2 = k + (j2 + 1) by omega])
      simp [read_words, h0, hrec]
      omega

theorem read_words_ok (dev : Dev) :
    ∀ (regs : List Nat) (k : Nat), (∀ i < regs.length, read_ok (dev (k + i))) →
      ∃ ws, read_words dev regs k = (some ws, k + regs.length) := by
  intro regs
  induction regs with
  | nil => intro k hok; exact ⟨[], by simp [read_words]⟩
  | cons reg rs ih =>
    intro k hok
    obtain ⟨bs, hbs, hlen⟩ := hok 0 (by simp)
    rw [Nat.add_zero] at hbs
    have h0 := read_word_of_ok dev k reg 0x01 bs hbs hlen
    obtain ⟨ws, hws⟩ := ih (k + 1) (fun i hi => by
      have hh := hok (i + 1) (by simp; omega)
      rwa [show k + (i + 1) = k + 1 + i by omega] at hh)
    refine ⟨((bs.getD (bs.length - 3) 0 <<< 8) ||| bs.getD (bs.length - 2) 0) :: ws, ?_⟩
    simp [read_words, h0, hws]
    omega

/-- C7: `detect_identity` is atomic-or-nothing: if the reads succeed up
to the j-th of the 8 register reads (4 product, then 4 serial) and the
j-th fails, `detect_identity` returns `none` having made exactly j + 1
device interactions — the remaining reads of that group are never
attempted, and no record is built from a partial set of reads. -/
theorem detect_identity_atomic (dev : Dev) (k j : Nat)
    (hj : j < 8) (hok : ∀ i < j, read_ok (dev (k + i)))
    (hfail : read_fails (dev (k + j))) :
    detect_identity dev k = (Except.ok none, k + j + 1) := by
  by_cases h4 : j < 4
  · have hp := read_words_fail dev PROD_ID_REGISTERS k j
      (by simp [PROD_ID_REGISTERS]; omega) hok hfail
    simp [detect_identity, hp]
  · have hpok : ∀ i < PROD_ID_REGISTERS.length, read_ok (dev (k + i)) := by
      intro i hi
      apply hok
      simp [PROD_ID_REGISTERS] at hi
      omega
    obtain ⟨ws, hws⟩ := read_words_ok dev PROD_ID_REGISTERS k hpok
    have hlen4 : PROD_ID_REGISTERS.length = 4 := rfl
    rw [hlen4] at hws
    have hs := read_words_fail dev SERIAL_REGISTERS (k + 4) (j - 4)
      (by simp [SERIAL_REGISTERS]; omega)
      (fun i hi => by
        have hh := hok (4 + i) (by omega)
        rwa [show k + (4 + i) = k + 4 + i by omega] at hh)
      (by rwa [show k + 4 + (j - 4) = k + j by omega])
    simp [detect_identity, hws, hs]
    omega

theorem detect_identity_atomic_witness :
    detect_identity (fun _ => DevResp.exn) 0 = (Except.ok none, 1) :=
  detect_identity_atomic (fun _ => DevResp.exn) 0 0 (by omega)
    (fun i hi => absurd hi (Nat.not_lt_zero i)) (Or.inl rfl)

/-- C3: in `full_reset`, once the prelude and the reset spell succeed, a
`false` result from `flash_test` does not abort the sequence — if
`software_reset` then returns `true`, `full_reset` returns `true`;
whereas whenever `software_reset` returns `false`, `full_reset` returns
`false` regardless of the `flash_test` outcome. -/
theorem full_reset_flash_test_nonfatal (dev : Dev) (k k1 : Nat) (persist : Bool)
    (fb ft rd sw : Nat) (a : List Nat)
    (hpre : fullResetPre dev k fb persist = (true, k1))
    (hr : dev k1 = DevResp.ok a) :
    ((flash_test dev (k1 + 1) ft rd).1 = false →
      (software_reset dev (flash_test dev (k1 + 1) ft rd).2 sw).1 = true →
      (full_reset dev k persist fb ft rd sw).1 = true) ∧
    ((software_reset dev (flash_test dev (k1 + 1) ft rd).2 sw).1 = false →
      (full_reset dev k persist fb ft rd sw).1 = false) := by
  have hrs : reset_sensor dev k1 = (Except.ok (), k1 + 1) := by
    simp [reset_sensor, hr]
  have hfr : full_reset dev k persist fb ft rd sw =
      software_reset dev (flash_test dev (k1 + 1) ft rd).2 sw := by
    unfold full_reset
    rw [hpre]
    dsimp only
    rw [hrs]
  constructor
  · intro _ hs
    rw [hfr]
    exact hs
  · intro hs
    rw [hfr]
    exact hs

theorem full_reset_flash_test_nonfatal_witness :
    (flash_test (fun _ => DevResp.ok [0, 0, 0, 0x0D]) 2 0 0).1 = false ∧
    (full_reset (fun _ => DevResp.ok [0, 0, 0, 0x0D]) 0 false 0 0 0 1).1 = true :=
  ⟨rfl,
    (full_reset_flash_test_nonfatal (fun _ => DevResp.ok [0, 0, 0, 0x0D])
      0 1 false 0 0 0 1 [0, 0, 0, 0x0D] rfl rfl).1 rfl rfl⟩

/-- C9: if the DIAG_STAT1 verification read in `flash_test` returns a
response of fewer than 4 bytes without raising, `flash_test` skips the
FLASH_ERR bit check entirely and returns `true` — whereas `flash_backup`
in the same situation (its poll loop broke, the verify response is
shorter than 4 bytes) returns `false`. -/
theorem flash_test_short_diag_contrast (dev dev2 : Dev)
    (k fuel ready k1 k2 : Nat) (r r2 a b : List Nat) (log : List (List Nat))
    (h0 : dev k = DevResp.ok a)
    (hl : flashTestLoop dev fuel (k + 1) = (Except.ok true, k1))
    (h1 : dev k1 = DevResp.ok r) (hshort : r.length < 4)
    (g0 : dev2 k = DevResp.ok b)
    (gl : flashBackupLoop dev2 fuel (k + 1) = (Except.ok true, k2, log))
    (g1 : dev2 k2 = DevResp.ok r2) (gshort : r2.length < 4) :
    (flash_test dev k fuel ready).1 = true ∧ (flash_backup dev2 k fuel).1 = false := by
  constructor
  · have hc : ¬(4 ≤ r.length ∧ r.getD (r.length - 2) 0 &&& 0x04 ≠ 0) := by
      intro hh
      omega
    unfold flash_test
    rw [h0]
    dsimp only
    rw [hl]
    dsimp only
    rw [h1]
    dsimp only
    rw [if_neg hc]
  · have hc2 : ¬ 4 ≤ r2.length := by omega
    simp [flash_backup, g0, gl, g1, hc2]

theorem flash_test_short_diag_contrast_witness :
    (flash_test (fun i => if i = 1 then DevResp.ok [0, 0, 0, 0x0D] else DevResp.ok [])
      0 1 0).1 = true ∧
    (flash_backup (fun i => if i = 1 then DevResp.ok [0, 0, 0, 0x0D] else DevResp.ok [])
      0 1).1 = false :=
  flash_test_short_diag_contrast
    (fun i => if i = 1 then DevResp.ok [0, 0, 0, 0x0D] else DevResp.ok [])
    (fun i => if i = 1 then DevResp.ok [0, 0, 0, 0x0D] else DevResp.ok [])
    0 1 0 2 2 [] [] [] [] backupPollCmds
    rfl rfl rfl (by decide) rfl rfl rfl (by decide)

theorem flashBackupLoop_step_exn (dev : Dev) (f k : Nat) (hd : dev k = DevResp.exn) :
    flashBackupLoop dev (f + 1) k = (Except.error (), k + 1, backupPollCmds) := by
  simp only [flashBackupLoop]
  rw [hd]

theorem flashBackupLoop_step_done (dev : Dev) (f k : Nat) (r : List Nat)
    (hd : dev k = DevResp.ok r) (hc : 4 ≤ r.length ∧ r.getD 2 0 &&& 0x08 = 0) :
    flashBackupLoop dev (f + 1) k = (Except.ok true, k + 1, backupPollCmds) := by
  simp only [flashBackupLoop]
  rw [hd]
  dsimp only
  rw [if_pos hc]

theorem flashBackupLoop_step_again (dev : Dev) (f k : Nat) (r : List Nat)
    (hd : dev k = DevResp.ok r) (hc : ¬(4 ≤ r.length ∧ r.getD 2 0 &&& 0x08 = 0)) :
    flashBackupLoop dev (f + 1) k =
      ((flashBackupLoop dev f (k + 1)).1, (flashBackupLoop dev f (k + 1)).2.1,
        backupPollCmds ++ (flashBackupLoop dev f (k + 1)).2.2) := by
  simp only [flashBackupLoop]
  rw [hd]
  dsimp only
  rw [if_neg hc]

theorem flashBackupLoop_char (dev : Dev) :
    ∀ (fuel k : Nat),
      ((flashBackupLoop dev fuel k).1 = Except.ok true ↔
        ∃ i < fuel, (∀ j < i, backup_poll_again (dev (k + j))) ∧ backup_done (dev (k + i))) ∧
      (∀ i, i < fuel → (∀ j < i, backup_poll_again (dev (k + j))) →
        backup_done (dev (k + i)) → (flashBackupLoop dev fuel k).2.1 = k + i + 1) := by
  intro fuel
  induction fuel with
  | zero =>
    intro k
    refine ⟨by simp [flashBackupLoop], ?_⟩
    intro i hi
    exact absurd hi (Nat.not_lt_zero i)
  | succ f ih =>
    intro k
    constructor
    · cases hd : dev k with
      | exn =>
        rw [flashBackupLoop_step_exn dev f k hd]
        constructor
        · intro h; simp at h
        · rintro ⟨i, hi, hprev, hdone⟩
          exfalso
          cases i with
          | zero =>
            obtain ⟨bs, hbs, _, _⟩ := hdone
            rw [Nat.add_zero, hd] at hbs
            exact DevResp.noConfusion hbs
          | succ j =>
            obtain ⟨bs, hbs, _⟩ := hprev 0 (by omega)
            rw [Nat.add_zero, hd] at hbs
            exact DevResp.noConfusion hbs
      | ok r =>
        by_cases hc : 4 ≤ r.length ∧ r.getD 2 0 &&& 0x08 = 0
        · rw [flashBackupLoop_step_done dev f k r hd hc]
          constructor
          · intro _
            exact ⟨0, by omega, fun j hj => absurd hj (Nat.not_lt_zero j),
              ⟨r, by rw [Nat.add_zero]; exact hd, hc.1, hc.2⟩⟩
          · intro _; rfl
        · rw [flashBackupLoop_step_again dev f k r hd hc]
          constructor
          · intro h
            have h2 : (flashBackupLoop dev f (k + 1)).1 = Except.ok true := h
            obtain ⟨i, hi, hprev, hdone⟩ := ((ih (k + 1)).1).mp h2
            refine ⟨i + 1, by omega, ?_, ?_⟩
            · intro j hj
              cases j with
              | zero => exact ⟨r, by rw [Nat.add_zero]; exact hd, hc⟩
              | succ j2 =>
                have hh := hprev j2 (by omega)
                rwa [show k + 1 + j2 = k + (j2 + 1) by omega] at hh
            · rwa [show k + (i + 1) = k + 1 + i by omega]
          · rintro ⟨i, hi, hprev, hdone⟩
            cases i with
            | zero =>
              exfalso
              obtain ⟨bs, hbs, hl, hb⟩ := hdone
              rw [Nat.add_zero, hd] at hbs
              obtain rfl := (DevResp.ok.injEq _ _).mp hbs.symm
              exact hc ⟨hl, hb⟩
            | succ j =>
              show (flashBackupLoop dev f (k + 1)).1 = Except.ok true
              apply ((ih (k + 1)).1).mpr
              refine ⟨j, by omega, ?_, ?_⟩
              · intro j2 hj2
                have hh := hprev (j2 + 1) (by omega)
                rwa [show k + (j2 + 1) = k + 1 + j2 by omega] at hh
              · have hh := hdone
                rwa [show k + (j + 1) = k + 1 + j by omega] at hh
    · intro i hi hprev hdone
      cases hd : dev k with
      | exn =>
        exfalso
        cases i with
        | zero =>
          obtain ⟨bs, hbs, _, _⟩ := hdone
          rw [Nat.add_zero, hd] at hbs
          exact DevResp.noConfusion hbs
        | succ j =>
          obtain ⟨bs, hbs, _⟩ := hprev 0 (by omega)
          rw [Nat.add_zero, hd] at hbs
          exact DevResp.noConfusion hbs
      | ok r =>
        cases i with
        | zero =>
          obtain ⟨bs, hbs, hl, hb⟩ := hdone
          rw [Nat.add_zero, hd] at hbs
          obtain rfl := (DevResp.ok.injEq _ _).mp hbs.symm
          rw [flashBackupLoop_step_done dev f k bs hd ⟨hl, hb⟩]
        | succ j =>
          have hc : ¬(4 ≤ r.length ∧ r.getD 2 0 &&& 0x08 = 0) := by
            obtain ⟨bs, hbs, hneg⟩ := hprev 0 (by omega)
            rw [Nat.add_zero, hd] at hbs
            obtain rfl := (DevResp.ok.injEq _ _).mp hbs.symm
            exact hneg
          rw [flashBackupLoop_step_again dev f k r hd hc]
          show (flashBackupLoop dev f (k + 1)).2.1 = k + (j + 1) + 1
          have hh := (ih (k + 1)).2 j (by omega)
            (fun j2 hj2 => by
              have hh2 := hprev (j2 + 1) (by omega)
              rwa [show k + (j2 + 1) = k + 1 + j2 by omega] at hh2)
            (by
              have hh2 := hdone
              rwa [show k + (j + 1) = k + 1 + j by omega] at hh2)
          rw [hh]
          omega

/-- C1: `flash_backup` returns `true` exactly when the start command does
not raise and, within the polling bound, a GLOB_CMD poll (preceded only
by keep-polling responses) shows bit 3 of the low byte clear and the
subsequent DIAG_STAT1 verify read (window 0, address 0x04) yields at
least 4 bytes with bit 0 of the low byte clear; in every other case —
bit 3 never reading clear within the bound, a verify response with bit 0
set or shorter than 4 bytes, or an exception — it returns `false`
without raising (the embedding is total, mirroring the catch-all
handler of the source). -/
theorem flash_backup_true_iff (dev : Dev) (k fuel : Nat) :
    (flash_backup dev k fuel).1 = true ↔
      (∃ a, dev k = DevResp.ok a) ∧
      ∃ i < fuel, (∀ j < i, backup_poll_again (dev (k + 1 + j))) ∧
        backup_done (dev (k + 1 + i)) ∧ backup_verify_ok (dev (k + 1 + i + 1)) := by
  constructor
  · intro h
    cases hd : dev k with
    | exn =>
      exfalso
      have heq : flash_backup dev k fuel = (false, k + 1, backupStartCmds) := by
        unfold flash_backup
        rw [hd]
      rw [heq] at h
      simp at h
    | ok a =>
      rcases hl : flashBackupLoop dev fuel (k + 1) with ⟨st, k1, log⟩
      cases st with
      | error e =>
        exfalso
        have heq : flash_backup dev k fuel = (false, k1, backupStartCmds ++ log) := by
          unfold flash_backup
          rw [hd]
          dsimp only
          rw [hl]
        rw [heq] at h
        simp at h
      | ok b =>
        cases b with
        | false =>
          exfalso
          have heq : flash_backup dev k fuel = (false, k1, backupStartCmds ++ log) := by
            unfold flash_backup
            rw [hd]
            dsimp only
            rw [hl]
          rw [heq] at h
          simp at h
        | true =>
          have hst : (flashBackupLoop dev fuel (k + 1)).1 = Except.ok true := by
            rw [hl]
          obtain ⟨i, hi, hprev, hdone⟩ := ((flashBackupLoop_char dev fuel (k + 1)).1).mp hst
          have hk1 : k1 = k + 1 + i + 1 := by
            have hh := (flashBackupLoop_char dev fuel (k + 1)).2 i hi hprev hdone
            rw [hl] at hh
            exact hh
          cases hv : dev k1 with
          | exn =>
            exfalso
            have heq : flash_backup dev k fuel =
                (false, k1 + 1, backupStartCmds ++ log ++ backupVerifyCmds) := by
              unfold flash_backup
              rw [hd]
              dsimp only
              rw [hl]
              dsimp only
              rw [hv]
            rw [heq] at h
            simp at h
          | ok r =>
            by_cases h4 : 4 ≤ r.length
            · by_cases hbit : r.getD 2 0 &&& 0x01 = 0
              · refine ⟨⟨a, rfl⟩, i, hi, hprev, hdone, ?_⟩
                exact ⟨r, by rw [← hk1]; exact hv, h4, hbit⟩
              · exfalso
                have heq : flash_backup dev k fuel =
                    (false, k1 + 1, backupStartCmds ++ log ++ backupVerifyCmds) := by
                  unfold flash_backup
                  rw [hd]
                  dsimp only
                  rw [hl]
                  dsimp only
                  rw [hv]
                  dsimp only
                  rw [if_pos h4, if_neg hbit]
                rw [heq] at h
                simp at h
            · exfalso
              have heq : flash_backup dev k fuel =
                  (false, k1 + 1, backupStartCmds ++ log ++ backupVerifyCmds) := by
                unfold flash_backup
                rw [hd]
                dsimp only
                rw [hl]
                dsimp only
                rw [hv]
                dsimp only
                rw [if_neg h4]
              rw [heq] at h
              simp at h
  · rintro ⟨⟨a, hd⟩, i, hi, hprev, hdone, hver⟩
    have hst : (flashBackupLoop dev fuel (k + 1)).1 = Except.ok true :=
      ((flashBackupLoop_char dev fuel (k + 1)).1).mpr ⟨i, hi, hprev, hdone⟩
    have hidx : (flashBackupLoop dev fuel (k + 1)).2.1 = k + 1 + i + 1 :=
      (flashBackupLoop_char dev fuel (k + 1)).2 i hi hprev hdone
    rcases hl : flashBackupLoop dev fuel (k + 1) with ⟨st, k1, log⟩
    rw [hl] at hst hidx
    have hst2 : st = Except.ok true := hst
    have hidx2 : k1 = k + 1 + i + 1 := hidx
    subst hst2
    obtain ⟨r, hrr, h4, hbit⟩ := hver
    have hv : dev k1 = DevResp.ok r := by rw [hidx2]; exact hrr
    have heq : flash_backup dev k fuel =
        (true, k1 + 1, backupStartCmds ++ log ++ backupVerifyCmds) := by
      unfold flash_backup
      rw [hd]
      dsimp only
      rw [hl]
      dsimp only
      rw [hv]
      dsimp only
      rw [if_pos h4, if_pos hbit]
    rw [heq]
